import Mathlib

/-!
Verification of the Quiz Builder core (parser, validator, exporter).

This file gives a shallow embedding of the Quiz Builder's core logic:
`QuizParser.parse` together with its rendering helpers (`Core.js`),
`QuizValidator.validate` and `QuizExporter.generateZip` (`Services.js`),
and proves properties of the pipeline.

Modelling conventions:
  - The abstract document tree is a list of `Block`s; a `Block` is a
    paragraph, a list item, a table (rows of cells of blocks), or any
    other element kind (`other`), mirroring the element kinds the source
    dispatches on.  Inline content is a list of `INode`s (styled text
    runs, inline images, equations).
  - JavaScript strings are Lean `String`s; the JS `trim` / `startsWith` /
    regex tests used by the source are embedded as explicit character-list
    functions (`trimS`, `strHasPre`, ...).  The JS `\s` class is modelled
    by the ASCII whitespace characters that actually occur in document
    text (space, tab, CR, LF).
  - Thrown JS exceptions are `Except.error` with the exact message string
    the source builds.
  - The mutable image store (a JS object) is an association list with JS
    object semantics (`jsObjSet`): insertion order preserved, assignment
    to an existing key overwrites in place.
-/

/-- JS whitespace test (the characters relevant to document text). -/
def isWsJS (c : Char) : Bool :=
  c = ' ' || c = '\t' || c = '\n' || c = '\r'

/-- Trim on character lists: drop whitespace from both ends. -/
def trimL (l : List Char) : List Char :=
  ((l.dropWhile isWsJS).reverse.dropWhile isWsJS).reverse

/-- Embedding of JS `String.prototype.trim()`. -/
def trimS (s : String) : String :=
  ⟨trimL s.data⟩

/-- Embedding of JS `String.prototype.startsWith(p)` (also of the regex
tests of the form `/^literal/.test(s)` used by the source). -/
def strHasPre (p s : String) : Bool :=
  decide (s.data.take p.data.length = p.data)

/-- Collapse maximal whitespace runs to a single space (the flag says
whether the previous character was whitespace).  Embeds the JS
`replace(/\s+/g, ' ')`. -/
def collapseGo : Bool → List Char → List Char
  | _, [] => []
  | prevWs, c :: cs =>
    if isWsJS c then
      (if prevWs then collapseGo true cs else ' ' :: collapseGo true cs)
    else c :: collapseGo false cs

/-- Embedding of JS `replace(/\s+/g, ' ')`. -/
def collapseWs (s : String) : String :=
  ⟨collapseGo false s.data⟩

/-- Embedding of JS `replace(/^\s*<>\s*/, '')`: remove an optional run of
leading whitespace, the literal marker `<>`, and the whitespace following
it; if the marker is not there (after leading whitespace) the string is
returned unchanged. -/
def stripLeadMarker (s : String) : String :=
  let l := s.data.dropWhile isWsJS
  if l.take 2 = ['<', '>'] then ⟨(l.drop 2).dropWhile isWsJS⟩ else s

/-- Embedding of JS `replace(/^\\+/, '')` (strip leading backslashes). -/
def stripLeadingBackslashes (s : String) : String :=
  ⟨s.data.dropWhile (fun c => c = '\\')⟩

/-- One character of `QuizParser._escapeHtml`. -/
def escapeHtmlChar (c : Char) : List Char :=
  if c = '&' then "&amp;".data
  else if c = '<' then "&lt;".data
  else if c = '>' then "&gt;".data
  else if c = '"' then "&quot;".data
  else if c = '\'' then "&#039;".data
  else [c]

/-- Embedding of `QuizParser._escapeHtml` (the five sequential regex
replacements amount to a character-wise map, since no replacement text
contains a character replaced later). -/
def escapeHtml (s : String) : String :=
  ⟨s.data.flatMap escapeHtmlChar⟩

/-- Embedding of `QuizParser._escapeHtmlAttr` (same replacement table). -/
def escapeHtmlAttr (s : String) : String :=
  ⟨s.data.flatMap escapeHtmlChar⟩

/-- Embedding of JS `replace(/\n/g, '<br/>')` as used on escaped chunks. -/
def replaceNewlines (s : String) : String :=
  ⟨s.data.flatMap (fun c => if c = '\n' then "<br/>".data else [c])⟩

/-- Embedding of JS `String(n).padStart(3, '0')` for a natural number. -/
def padStart3 (n : Nat) : String :=
  let r := toString n
  if r.length ≥ 3 then r
  else if r.length = 2 then "0" ++ r
  else "00" ++ r

/-- Embedding of `QuizParser._getExtension`. -/
def getExtension (mime : String) : String :=
  if mime = "image/png" then "png"
  else if mime = "image/jpeg" then "jpg"
  else if mime = "image/gif" then "gif"
  else "png"

/-- JS `a || b` on numbers where `0` is falsy (used for line fallbacks). -/
def jsOrNat (a b : Nat) : Nat :=
  if a = 0 then b else a

/-- The quiz type set by the `[BEGIN#...]` header. -/
inductive QuizType where
  | MCQ
  | ESSAY
  deriving DecidableEq

/-- The string form of a quiz type as interpolated into messages. -/
def QuizType.str : QuizType → String
  | .MCQ => "MCQ"
  | .ESSAY => "ESSAY"

/-- A binary asset (Apps Script `Blob`): mutable name, MIME type, bytes. -/
structure Blob where
  name : String
  contentType : String
  data : String
  deriving DecidableEq

/-- Vertical alignment attribute of a text run. -/
inductive VAlign where
  | normal
  | superscriptA
  | subscriptA
  deriving DecidableEq

/-- A contiguous span of text sharing one attribute set (the source
splits a Text element at `getTextAttributeIndices()`; a `Run` is one such
chunk together with the attributes read at its start offset). -/
structure Run where
  text : String
  bold : Bool := false
  italic : Bool := false
  underline : Bool := false
  strikethrough : Bool := false
  valign : VAlign := .normal
  linkUrl : Option String := none
  deriving DecidableEq

/-- List glyph kinds dispatched on by `QuizParser._htmlListInfoFromGlyph`. -/
inductive Glyph where
  | bullet
  | hollowBullet
  | squareBullet
  | number
  | latinUpper
  | latinLower
  | romanUpper
  | romanLower
  | unknown
  deriving DecidableEq

/-- An HTML list container kind (tag plus attribute text). -/
structure LTag where
  tag : String
  attrs : String
  deriving DecidableEq

/-- Embedding of `QuizParser._htmlListInfoFromGlyph`. -/
def htmlListInfo : Glyph → LTag
  | .bullet => ⟨"ul", ""⟩
  | .hollowBullet => ⟨"ul", ""⟩
  | .squareBullet => ⟨"ul", ""⟩
  | .number => ⟨"ol", " type=\"1\""⟩
  | .latinUpper => ⟨"ol", " type=\"A\""⟩
  | .latinLower => ⟨"ol", " type=\"a\""⟩
  | .romanUpper => ⟨"ol", " type=\"I\""⟩
  | .romanLower => ⟨"ol", " type=\"i\""⟩
  | .unknown => ⟨"ul", ""⟩

/-- An inline node: one child element of a paragraph or list item, as
dispatched on by `QuizParser._extractNode`.  Equation children (`TEXT`,
`EQUATION_FUNCTION`, `EQUATION_SYMBOL`) reuse the same type. -/
inductive INode where
  | text (runs : List Run)
  | inlineImage (blob : Blob) (width height : Option Int)
  | equation (kids : List INode)
  | eqFunc (code : String) (kids : List INode)
  | eqSym (code : String) (fallbackText : String)

/-- The plain text of an inline node (`getText()`): text elements yield
their characters, other inline kinds contribute nothing. -/
def INode.rawText : INode → String
  | .text runs => String.join (runs.map Run.text)
  | _ => ""

/-- A top-level document block, as dispatched on by `QuizParser.parse`:
a paragraph, a list item, a table (rows of cells, each cell again a
sequence of blocks), or any other element kind. -/
inductive Block where
  | para (kids : List INode)
  | listItem (kids : List INode) (glyph : Glyph)
  | table (rows : List (List (List Block)))
  | other

/-- The trimmed text the parse loop computes for a block (`getText().trim()`
for paragraphs and list items, the empty string otherwise). -/
def blockTrimText : Block → String
  | .para kids => trimS (String.join (kids.map INode.rawText))
  | .listItem kids _ => trimS (String.join (kids.map INode.rawText))
  | _ => ""

/-- Embedding of `QuizParser._latexForEquationSymbolCode`'s allow-list. -/
def knownCommands : List String :=
  ["alpha", "beta", "gamma", "delta", "epsilon", "zeta", "eta", "theta",
   "iota", "kappa", "lambda", "mu", "nu", "xi", "omicron", "pi", "rho",
   "sigma", "tau", "upsilon", "phi", "chi", "psi", "omega",
   "Gamma", "Delta", "Theta", "Lambda", "Xi", "Pi", "Sigma", "Upsilon",
   "Phi", "Psi", "Omega",
   "pm", "mp", "times", "div", "cdot", "circ", "ast", "star", "oplus",
   "otimes", "leq", "geq", "neq", "approx", "sim", "equiv", "propto",
   "in", "notin", "subset", "subseteq", "supset", "supseteq", "cup", "cap",
   "forall", "exists", "neg", "land", "lor",
   "rightarrow", "leftarrow", "leftrightarrow", "Rightarrow", "Leftarrow",
   "Leftrightarrow", "infty"]

/-- ASCII letter test (JS `[A-Za-z]`). -/
def isAsciiLetter (c : Char) : Bool :=
  ('A' ≤ c && c ≤ 'Z') || ('a' ≤ c && c ≤ 'z')

/-- ASCII alphanumeric test (JS `[A-Za-z0-9]`). -/
def isAsciiAlnum (c : Char) : Bool :=
  isAsciiLetter c || ('0' ≤ c && c ≤ '9')

/-- Embedding of `QuizParser._latexForEquationSymbolCode`. -/
def latexForEquationSymbolCode (code : String) : String :=
  let trimmed := stripLeadingBackslashes (trimS code)
  if trimmed = "" then ""
  else if trimmed = "superscript" || trimmed = "super" then "^"
  else if trimmed = "subscript" || trimmed = "sub" then "_"
  else if trimmed.data.length = 1 && trimmed.data.all isAsciiAlnum then trimmed
  else if trimmed.data.all isAsciiLetter && !(knownCommands.contains trimmed) then trimmed
  else "\\" ++ trimmed

/-- JS template interpolation of `args[i]`: out-of-range indexing of a JS
array yields `undefined`, which a template literal renders literally. -/
def jsIdx (args : List String) (i : Nat) : String :=
  match args.get? i with
  | some s => s
  | none => "undefined"

/-- JS `args[i] || ''`. -/
def jsIdxOr (args : List String) (i : Nat) : String :=
  (args.get? i).getD ""

/-- The `EQUATION_FUNCTION` translation table of `QuizParser._extractNode`,
applied to the normalised function code and the already-rendered argument
list. -/
def renderEqFun (funcCode : String) (args : List String) : String :=
  if funcCode = "frac" then
    "\\frac\x7b" ++ jsIdxOr args 0 ++ "\x7d\x7b" ++ String.join (args.drop 1) ++ "\x7d"
  else if funcCode = "root" then
    if args.length = 2 && jsIdxOr args 1 ≠ "" then
      "\\sqrt[" ++ jsIdx args 1 ++ "]\x7b" ++ jsIdx args 0 ++ "\x7d"
    else
      "\\sqrt\x7b" ++ jsIdx args 0 ++ "\x7d"
  else if funcCode = "super" || funcCode = "superscript" then
    "^\x7b" ++ jsIdxOr args 0 ++ "\x7d"
  else if funcCode = "sub" || funcCode = "subscript" then
    "_\x7b" ++ jsIdxOr args 0 ++ "\x7d"
  else if funcCode = "" then
    String.join args
  else
    "\\" ++ funcCode ++ String.join (args.map (fun a => "\x7b" ++ a ++ "\x7d"))

/-- The rendering context threaded through `_extractHtml`/`_extractNode`
(the JS `context` object; an absent context is `⟨false, false⟩`). -/
structure Ctx where
  inEquation : Bool := false
  stripMarker : Bool := false
  deriving DecidableEq

/-- The mutable state threaded through extraction: the image store and the
per-option `_markerStripped` flag of the context object. -/
structure ExtractSt where
  images : List (String × Blob) := []
  markerStripped : Bool := false
  deriving DecidableEq

/-- JS object assignment `store[k] = v`: overwrite in place if the key
exists, else append preserving insertion order. -/
def jsObjSet (m : List (String × Blob)) (k : String) (v : Blob) : List (String × Blob) :=
  if m.any (fun kv => kv.1 = k) then
    m.map (fun kv => if kv.1 = k then (k, v) else kv)
  else m ++ [(k, v)]

/-- One styled chunk of `QuizParser._extractStyledText`: escape, newline
replacement, then the fixed wrapping order (super/subscript innermost,
then strikethrough, underline, italic, bold, hyperlink outermost). -/
def styledChunkHtml (r : Run) (chunk : String) : String :=
  let h0 := replaceNewlines (escapeHtml chunk)
  let h1 :=
    match r.valign with
    | .superscriptA => "<sup>" ++ h0 ++ "</sup>"
    | .subscriptA => "<sub>" ++ h0 ++ "</sub>"
    | .normal => h0
  let h2 := if r.strikethrough then "<s>" ++ h1 ++ "</s>" else h1
  let h3 := if r.underline then "<u>" ++ h2 ++ "</u>" else h2
  let h4 := if r.italic then "<i>" ++ h3 ++ "</i>" else h3
  let h5 := if r.bold then "<b>" ++ h4 ++ "</b>" else h4
  match r.linkUrl with
  | some url =>
      "<a href=\"" ++ escapeHtmlAttr url ++
        "\" target=\"_blank\" rel=\"noopener noreferrer\">" ++ h5 ++ "</a>"
  | none => h5

/-- Embedding of `QuizParser._extractStyledText`: fold over the runs of a
text element, threading the `_markerStripped` flag; empty chunks are
skipped, and (when marker stripping is requested) the first non-empty
chunk has the leading `<>` marker removed and permanently sets the flag. -/
def extractStyledText (stripMarker : Bool) : List Run → Bool → String × Bool
  | [], stripped => ("", stripped)
  | r :: rs, stripped =>
    if r.text = "" then extractStyledText stripMarker rs stripped
    else
      let (chunk, stripped') :=
        if stripMarker && !stripped then (stripLeadMarker r.text, true)
        else (r.text, stripped)
      let (rest, strippedOut) := extractStyledText stripMarker rs stripped'
      (styledChunkHtml r chunk ++ rest, strippedOut)

mutual
/-- Embedding of `QuizParser._extractNode`. -/
def extractNode (qid : String) (ctx : Ctx) (n : INode) (st : ExtractSt) : String × ExtractSt :=
  match n with
  | .text runs =>
      if ctx.inEquation then
        (escapeHtml (String.join (runs.map Run.text)), st)
      else
        let r := extractStyledText ctx.stripMarker runs st.markerStripped
        (r.1, { st with markerStripped := r.2 })
  | .inlineImage blob w hgt =>
      let existingCount := ((st.images.map Prod.fst).filter (fun k => strHasPre (qid ++ "_") k)).length
      let localCount := existingCount + 1
      let ext := getExtension blob.contentType
      let filename := qid ++ "_img_" ++ padStart3 localCount ++ "." ++ ext
      let widthAttr :=
        match w with
        | some v => if 0 < v then " width=\"" ++ toString v ++ "\"" else ""
        | none => ""
      let heightAttr :=
        match hgt with
        | some v => if 0 < v then " height=\"" ++ toString v ++ "\"" else ""
        | none => ""
      ("<img src=\"images/" ++ filename ++ "\"" ++ widthAttr ++ heightAttr ++
         " style=\"max-width: 100%; height: auto;\" />",
       { st with images := jsObjSet st.images filename blob })
  | .equation kids =>
      let r := extractNodes qid { ctx with inEquation := true } kids st
      ("$" ++ String.join r.1 ++ "$", r.2)
  | .eqFunc code kids =>
      let funcCode := stripLeadingBackslashes (trimS code)
      let r := extractNodes qid { ctx with inEquation := true } kids st
      (renderEqFun funcCode r.1, r.2)
  | .eqSym code fallbackText =>
      if code ≠ "" then (latexForEquationSymbolCode code, st)
      else (escapeHtml fallbackText, st)

/-- Renders a list of inline nodes in order, threading the state. -/
def extractNodes (qid : String) (ctx : Ctx) (ns : List INode) (st : ExtractSt) : List String × ExtractSt :=
  match ns with
  | [] => ([], st)
  | n :: rest =>
      let r := extractNode qid ctx n st
      let rs := extractNodes qid ctx rest r.2
      (r.1 :: rs.1, rs.2)
end

/-- Embedding of `QuizParser._extractHtml`: render every child and join. -/
def extractHtml (qid : String) (ctx : Ctx) (kids : List INode) (st : ExtractSt) : String × ExtractSt :=
  let r := extractNodes qid ctx kids st
  (String.join r.1, r.2)

/-- The closing text for an open HTML list container, if any. -/
def closeStr : Option LTag → String
  | some l => "</" ++ l.tag ++ ">"
  | none => ""

mutual
/-- The block loop inside one table cell of `QuizParser._extractTableHtml`:
paragraphs (followed by `<br/>`), grouped list items, and nested tables;
any other block kind is skipped.  `openL` is the currently open list. -/
def cellBlocksHtml (qid : String) (bs : List Block) (openL : Option LTag) (st : ExtractSt) : String × ExtractSt :=
  match bs with
  | [] => (closeStr openL, st)
  | b :: rest =>
    match b with
    | .para kids =>
        let pre := closeStr openL
        let r := extractHtml qid {} kids st
        let rr := cellBlocksHtml qid rest none r.2
        (pre ++ r.1 ++ "<br/>" ++ rr.1, rr.2)
    | .listItem kids g =>
        let info := htmlListInfo g
        let pre :=
          if openL = some info then ""
          else closeStr openL ++ "<" ++ info.tag ++ info.attrs ++ ">"
        let r := extractHtml qid {} kids st
        let rr := cellBlocksHtml qid rest (some info) r.2
        (pre ++ "<li>" ++ r.1 ++ "</li>" ++ rr.1, rr.2)
    | .table rows =>
        let pre := closeStr openL
        let r := tableRowsHtml qid rows st
        let rr := cellBlocksHtml qid rest none r.2
        (pre ++ r.1 ++ rr.1, rr.2)
    | .other =>
        cellBlocksHtml qid rest openL st

/-- Renders the rows of a table. -/
def tableRowsHtml (qid : String) (rows : List (List (List Block))) (st : ExtractSt) : String × ExtractSt :=
  match rows with
  | [] => ("", st)
  | r :: rs =>
      let rc := tableCellsHtml qid r st
      let rr := tableRowsHtml qid rs rc.2
      ("<tr>" ++ rc.1 ++ "</tr>" ++ rr.1, rr.2)

/-- Renders the cells of one table row. -/
def tableCellsHtml (qid : String) (cells : List (List Block)) (st : ExtractSt) : String × ExtractSt :=
  match cells with
  | [] => ("", st)
  | c :: cs =>
      let rb := cellBlocksHtml qid c none st
      let rr := tableCellsHtml qid cs rb.2
      ("<td>" ++ rb.1 ++ "</td>" ++ rr.1, rr.2)
end

/-- Embedding of `QuizParser._extractTableHtml`. -/
def extractTableHtml (qid : String) (rows : List (List (List Block))) (st : ExtractSt) : String × ExtractSt :=
  let r := tableRowsHtml qid rows st
  ("<table>" ++ r.1 ++ "</table>", r.2)

/-- JS template interpolation of a string-or-null variable. -/
def jsShowOptStr : Option String → String
  | some s => s
  | none => "null"

/-- A parsed option (`QuizParser.parse`, READING_OPTIONS branch). -/
structure QOption where
  id : String
  text : String
  choiceText : String
  isCorrect : Bool
  line : Nat
  deriving DecidableEq

/-- A question object as built by `QuizParser._createQuestionObj` and
mutated by the parse loop (the underscore-prefixed accumulator fields
keep their meaning, renamed without the underscore). -/
structure PQuestion where
  num : Nat
  id : String
  line : Nat
  content : String
  contentHtmlParts : List String
  descriptions : Option String
  descriptionHtmlParts : List String
  hasOptionsTag : Bool
  optionsTagLine : Nat
  hasDescriptionsTag : Bool
  descriptionsTagLine : Nat
  options : List QOption
  listOpen : Bool
  listTag : Option String
  listAttrs : String
  descListOpen : Bool
  descListTag : Option String
  descListAttrs : String
  deriving DecidableEq

/-- Embedding of `QuizParser._createQuestionObj`. -/
def createQuestionObj (num line : Nat) : PQuestion :=
  { num := num
    id := "q" ++ toString num
    line := line
    content := ""
    contentHtmlParts := []
    descriptions := none
    descriptionHtmlParts := []
    hasOptionsTag := false
    optionsTagLine := 0
    hasDescriptionsTag := false
    descriptionsTagLine := 0
    options := []
    listOpen := false
    listTag := none
    listAttrs := ""
    descListOpen := false
    descListTag := none
    descListAttrs := "" }

instance : Inhabited PQuestion := ⟨createQuestionObj 0 0⟩

/-- Embedding of the parse loop's `closeQuestionListIfOpen`. -/
def closeQuestionListIfOpen (q : PQuestion) : PQuestion :=
  if q.listOpen then
    { q with contentHtmlParts := q.contentHtmlParts ++ ["</" ++ jsShowOptStr q.listTag ++ ">"]
             listOpen := false, listTag := none, listAttrs := "" }
  else q

/-- Embedding of the parse loop's `closeDescriptionListIfOpen`. -/
def closeDescriptionListIfOpen (q : PQuestion) : PQuestion :=
  if q.descListOpen then
    { q with descriptionHtmlParts := q.descriptionHtmlParts ++ ["</" ++ jsShowOptStr q.descListTag ++ ">"]
             descListOpen := false, descListTag := none, descListAttrs := "" }
  else q

/-- Closing both accumulator lists, in the order the source calls them. -/
def closeBothLists (q : PQuestion) : PQuestion :=
  closeDescriptionListIfOpen (closeQuestionListIfOpen q)

/-- The parse loop's state variable. -/
inductive PMode where
  | WAITING
  | READING_QUESTION
  | READING_OPTIONS
  | READING_DESCRIPTIONS
  deriving DecidableEq

/-- The mutable state of the parse loop. -/
structure PState where
  questions : List PQuestion := []
  current : Option PQuestion := none
  mode : PMode := .WAITING
  images : List (String × Blob) := []
  deriving DecidableEq

/-- Embedding of `QuizParser._parseBeginTag` (the regex
`/^\[BEGIN#(MCQ|ESSAY)\]$/` on the trimmed text). -/
def parseBeginTag (text : String) : Option QuizType :=
  let t := trimS text
  if t = "[BEGIN#MCQ]" then some .MCQ
  else if t = "[BEGIN#ESSAY]" then some .ESSAY
  else none

/-- A recognised question tag: its trailing inline text and (for the
`[QUESTION#n]` form) the human digit label, which the parser stores but
never uses for numbering. -/
structure QTag where
  inlineText : String
  labelNumber : Option Nat
  deriving DecidableEq

/-- Digits to number (JS `Number` on a digit string). -/
def digitsToNat (l : List Char) : Nat :=
  l.foldl (fun a c => a * 10 + (c.toNat - '0'.toNat)) 0

/-- The message of `QuizParser._parseQuestionTag`'s thrown error. -/
def invalidQuestionTagMsg (t : String) : String :=
  "Invalid question tag \"" ++ t ++ "\". Use [QUESTION] or [QUESTION#<number>] (e.g., [QUESTION#1])."

/-- Embedding of `QuizParser._parseQuestionTag`: `none` when the text is
not a question tag at all, a tag for the `[QUESTION]` and
`[QUESTION#<digits>]` forms, an error for any other `[QUESTION...]` text.
The regex `^\[QUESTION#(\d+)\](.*)$` requires one or more digits, a
closing bracket, and a remainder without a newline (`.` does not match
newlines). -/
def parseQuestionTag (text : String) : Except String (Option QTag) :=
  let t := trimS text
  if !strHasPre "[QUESTION" t then .ok none
  else if strHasPre "[QUESTION]" t then
    .ok (some ⟨trimS ⟨t.data.drop 10⟩, none⟩)
  else if strHasPre "[QUESTION#" t then
    let afterHash := t.data.drop 10
    let digits := afterHash.takeWhile Char.isDigit
    let rest := afterHash.drop digits.length
    if digits ≠ [] && rest.take 1 = [']'] && (rest.drop 1).all (fun c => c ≠ '\n') then
      .ok (some ⟨trimS ⟨rest.drop 1⟩, some (digitsToNat digits)⟩)
    else .error (invalidQuestionTagMsg t)
  else .error (invalidQuestionTagMsg t)

/-- Whether a block is one of the two text-bearing kinds the header scan
reads text from. -/
def isTextBlock : Block → Bool
  | .para _ => true
  | .listItem _ _ => true
  | _ => false

/-- The header-missing message of `QuizParser.parse` (without a found
text). -/
def missingHeaderMsg : String :=
  "Missing quiz type header. The first non-empty line must be [BEGIN#MCQ] or [BEGIN#ESSAY]."

/-- Embedding of the first loop of `QuizParser.parse`: scan for the
`[BEGIN#...]` header, skipping empty paragraphs/list items; any other
element kind, a non-matching non-empty text, or running out of blocks is
an error.  Returns the header's index and the quiz type. -/
def findBegin (i : Nat) : List Block → Except String (Nat × QuizType)
  | [] => .error missingHeaderMsg
  | b :: rest =>
    if isTextBlock b then
      let t := blockTrimText b
      if t = "" then findBegin (i + 1) rest
      else
        match parseBeginTag t with
        | some qt => .ok (i, qt)
        | none => .error (missingHeaderMsg ++ " (Found: \"" ++ t ++ "\")")
    else .error missingHeaderMsg

/-- The marker test of the READING_OPTIONS branch
(`/^\s*<>\s*/.test(rawText)`). -/
def hasLeadMarker (s : String) : Bool :=
  decide ((s.data.dropWhile isWsJS).take 2 = ['<', '>'])

/-- READING_QUESTION content processing of one block. -/
def readQuestionContent (b : Block) (q : PQuestion) (images : List (String × Blob)) :
    PQuestion × List (String × Blob) :=
  match b with
  | .para kids =>
      let q := closeQuestionListIfOpen q
      let r := extractHtml q.id {} kids ⟨images, false⟩
      let q :=
        if r.1 ≠ "" then
          { q with contentHtmlParts := q.contentHtmlParts ++ ["<p>" ++ r.1 ++ "</p>"] }
        else q
      (q, r.2.images)
  | .table rows =>
      let q := closeQuestionListIfOpen q
      let r := extractTableHtml q.id rows ⟨images, false⟩
      ({ q with contentHtmlParts := q.contentHtmlParts ++ [r.1] }, r.2.images)
  | .listItem kids g =>
      let r := extractHtml q.id {} kids ⟨images, false⟩
      let info := htmlListInfo g
      let q :=
        if !q.listOpen || q.listTag ≠ some info.tag || q.listAttrs ≠ info.attrs then
          let q := closeQuestionListIfOpen q
          { q with contentHtmlParts := q.contentHtmlParts ++ ["<" ++ info.tag ++ info.attrs ++ ">"]
                   listOpen := true, listTag := some info.tag, listAttrs := info.attrs }
        else q
      ({ q with contentHtmlParts := q.contentHtmlParts ++ ["<li>" ++ r.1 ++ "</li>"] }, r.2.images)
  | .other => (q, images)

/-- READING_DESCRIPTIONS content processing of one block. -/
def readDescriptionsContent (b : Block) (q : PQuestion) (images : List (String × Blob)) :
    PQuestion × List (String × Blob) :=
  match b with
  | .para kids =>
      let q := closeDescriptionListIfOpen q
      let r := extractHtml q.id {} kids ⟨images, false⟩
      let q :=
        if r.1 ≠ "" then
          { q with descriptionHtmlParts := q.descriptionHtmlParts ++ ["<p>" ++ r.1 ++ "</p>"] }
        else q
      (q, r.2.images)
  | .table rows =>
      let q := closeDescriptionListIfOpen q
      let r := extractTableHtml q.id rows ⟨images, false⟩
      ({ q with descriptionHtmlParts := q.descriptionHtmlParts ++ [r.1] }, r.2.images)
  | .listItem kids g =>
      let r := extractHtml q.id {} kids ⟨images, false⟩
      let info := htmlListInfo g
      let q :=
        if !q.descListOpen || q.descListTag ≠ some info.tag || q.descListAttrs ≠ info.attrs then
          let q := closeDescriptionListIfOpen q
          { q with descriptionHtmlParts := q.descriptionHtmlParts ++ ["<" ++ info.tag ++ info.attrs ++ ">"]
                   descListOpen := true, descListTag := some info.tag, descListAttrs := info.attrs }
        else q
      ({ q with descriptionHtmlParts := q.descriptionHtmlParts ++ ["<li>" ++ r.1 ++ "</li>"] }, r.2.images)
  | .other => (q, images)

/-- READING_OPTIONS content processing of one block: only list items
become options; the raw text decides `isCorrect` and `choiceText`, the
rendered HTML (with the leading marker stripped for correct options)
becomes `text`. -/
def readOptionsContent (i : Nat) (b : Block) (q : PQuestion) (images : List (String × Blob)) :
    PQuestion × List (String × Blob) :=
  match b with
  | .listItem kids _ =>
      let rawText := blockTrimText b
      let choiceText := collapseWs (trimS (stripLeadMarker rawText))
      let isCorrect := hasLeadMarker rawText
      let htmlCtx : Ctx := if isCorrect then { stripMarker := true } else {}
      let r := extractHtml q.id htmlCtx kids ⟨images, false⟩
      let opt : QOption :=
        { id := "opt_" ++ toString q.options.length
          text := r.1
          choiceText := choiceText
          isCorrect := isCorrect
          line := i + 1 }
      ({ q with options := q.options ++ [opt] }, r.2.images)
  | _ => (q, images)

/-- Applying a recognised question tag: close and push the previous
question, start a new one numbered by position, record inline text. -/
def applyQuestionTag (qtag : QTag) (i : Nat) (st : PState) : PState :=
  let st1 :=
    match st.current with
    | none => st
    | some q => { st with questions := st.questions ++ [closeBothLists q], current := none }
  let q0 := createQuestionObj (st1.questions.length + 1) (i + 1)
  let q1 :=
    if qtag.inlineText ≠ "" then
      { q0 with contentHtmlParts := q0.contentHtmlParts ++ ["<p>" ++ escapeHtml qtag.inlineText ++ "</p>"] }
    else q0
  { st1 with current := some q1, mode := .READING_QUESTION }

/-- The body of the main loop of `QuizParser.parse` for one non-header
block, faithful to the source's dispatch order: the misplaced-header
check, then question tags, `[OPTIONS]`, `[DESCRIPTIONS]`, then
state-dependent content processing. -/
def step (qt : QuizType) (beginLine : Nat) (i : Nat) (b : Block) (st : PState) :
    Except String PState :=
  if blockTrimText b ≠ "" && strHasPre "[BEGIN#" (blockTrimText b) then
    .error ("Invalid BEGIN header placement at line " ++ toString (i + 1) ++ ". [BEGIN#" ++
      qt.str ++ "] must be the first non-empty line (currently at line " ++ toString beginLine ++ ").")
  else
    match parseQuestionTag (blockTrimText b) with
    | .error e => .error e
    | .ok (some qtag) => .ok (applyQuestionTag qtag i st)
    | .ok none =>
      if strHasPre "[OPTIONS]" (blockTrimText b) then
        match st.current with
        | none =>
            .error ("Invalid [OPTIONS] placement at line " ++ toString (i + 1) ++
              ". [OPTIONS] must appear after a [QUESTION#n] tag.")
        | some q =>
          if qt = .ESSAY then
            .error ("Invalid [OPTIONS] for ESSAY at line " ++ toString (i + 1) ++
              ". Essay questions must not contain [OPTIONS].")
          else if q.hasOptionsTag then
            .error ("Duplicate [OPTIONS] tag for Question " ++ toString q.num ++ " at line " ++
              toString (i + 1) ++ ". Only one [OPTIONS] section is allowed per question.")
          else
            .ok { st with
                  current := some (closeBothLists { q with hasOptionsTag := true, optionsTagLine := i + 1 }),
                  mode := .READING_OPTIONS }
      else if strHasPre "[DESCRIPTIONS]" (blockTrimText b) then
        match st.current with
        | none =>
            .error ("Invalid [DESCRIPTIONS] placement at line " ++ toString (i + 1) ++
              ". [DESCRIPTIONS] must appear after a [QUESTION#n] tag.")
        | some q =>
          if qt = .MCQ && st.mode ≠ .READING_OPTIONS then
            .error ("Invalid [DESCRIPTIONS] placement at line " ++ toString (i + 1) ++
              ". For MCQ, [DESCRIPTIONS] must appear after [OPTIONS].")
          else if qt = .ESSAY && st.mode ≠ .READING_QUESTION then
            .error ("Invalid [DESCRIPTIONS] placement at line " ++ toString (i + 1) ++
              ". For ESSAY, [DESCRIPTIONS] must appear after the question content.")
          else if q.hasDescriptionsTag then
            .error ("Duplicate [DESCRIPTIONS] tag for Question " ++ toString q.num ++ " at line " ++
              toString (i + 1) ++ ". Only one [DESCRIPTIONS] section is allowed per question.")
          else
            .ok { st with
                  current := some (closeBothLists { q with hasDescriptionsTag := true, descriptionsTagLine := i + 1 }),
                  mode := .READING_DESCRIPTIONS }
      else
        match st.current with
        | none => .ok st
        | some q =>
          match st.mode with
          | .READING_QUESTION =>
              .ok { st with
                    current := some (readQuestionContent b q st.images).1,
                    images := (readQuestionContent b q st.images).2 }
          | .READING_OPTIONS =>
              .ok { st with
                    current := some (readOptionsContent i b q st.images).1,
                    images := (readOptionsContent i b q st.images).2 }
          | .READING_DESCRIPTIONS =>
              .ok { st with
                    current := some (readDescriptionsContent b q st.images).1,
                    images := (readDescriptionsContent b q st.images).2 }
          | .WAITING => .ok st

/-- The enumerated block list (0-based indices, as in the source loop). -/
def enumFrom (i : Nat) : List Block → List (Nat × Block)
  | [] => []
  | b :: bs => (i, b) :: enumFrom (i + 1) bs

/-- The main loop of `QuizParser.parse`: run `step` on every block except
the header. -/
def runBlocks (qt : QuizType) (beginIdx beginLine : Nat) :
    List (Nat × Block) → PState → Except String PState
  | [], st => .ok st
  | (i, b) :: rest, st =>
    if i = beginIdx then runBlocks qt beginIdx beginLine rest st
    else
      match step qt beginLine i b st with
      | .error e => .error e
      | .ok st' => runBlocks qt beginIdx beginLine rest st'

/-- Finalisation of one question: join the accumulated HTML parts; an
empty descriptions buffer becomes `null`. -/
def finalizeQuestion (q : PQuestion) : PQuestion :=
  let desc := String.join q.descriptionHtmlParts
  { q with content := String.join q.contentHtmlParts
           descriptions := if desc = "" then none else some desc }

/-- The Quiz Model produced by a successful parse (for a model built by
the parser `quizType` is always present; `none` models the `null` a
hand-built JS object could carry into the validator). -/
structure ParseResult where
  quizType : Option QuizType := none
  questions : List PQuestion := []
  images : List (String × Blob) := []
  deriving DecidableEq

/-- Embedding of `QuizParser.parse`. -/
def parse (blocks : List Block) : Except String ParseResult :=
  match findBegin 0 blocks with
  | .error e => .error e
  | .ok (beginIdx, qt) =>
    match runBlocks qt beginIdx (beginIdx + 1) (enumFrom 0 blocks) {} with
    | .error e => .error e
    | .ok st =>
      let questions :=
        match st.current with
        | none => st.questions
        | some q => st.questions ++ [closeBothLists q]
      .ok { quizType := some qt
            questions := questions.map finalizeQuestion
            images := st.images }

/-- A validation error or warning entry (`{message, line}`). -/
structure VErr where
  message : String
  line : Nat
  deriving DecidableEq

/-- The structured result `QuizValidator.validate` returns. -/
structure VResult where
  isValid : Bool
  errors : List VErr
  warnings : List VErr
  deriving DecidableEq

/-- The per-question message prefix every rule message starts with. -/
def qpre (n : Nat) : String :=
  "Question " ++ toString n ++ ": "

/-- Message of validation rule 1 (empty content). -/
def contentEmptyMsg (n : Nat) : String :=
  qpre n ++ "Content is empty."

/-- Message of the ESSAY options rule. -/
def essayOptionsMsg (n : Nat) : String :=
  qpre n ++ "[OPTIONS] is not allowed for ESSAY. Remove [OPTIONS] and the option list."

/-- Message of the missing `[OPTIONS]` rule. -/
def missingOptionsMsg (n : Nat) : String :=
  qpre n ++ "Missing [OPTIONS]. MCQ questions must have an [OPTIONS] section."

/-- Message of the option-count rule. -/
def needsTwoMsg (n c : Nat) : String :=
  qpre n ++ "Needs at least 2 options (found " ++ toString c ++ ")."

/-- Message of the zero-correct-answers rule. -/
def noCorrectMsg (n : Nat) : String :=
  qpre n ++ "No correct answer marked. Add '<>' to one option."

/-- Message of the multiple-correct-answers rule. -/
def multipleCorrectMsg (n c : Nat) : String :=
  qpre n ++ "Multiple correct answers found (" ++ toString c ++ "). Only one allowed."

/-- Message of the duplicate-options rule. -/
def duplicateMsg (n : Nat) (key : String) : String :=
  qpre n ++ "Duplicate options found: \"" ++ key ++ "\". Options must be unique."

/-- Message of the empty-option-text warning (`idx` is already 1-based). -/
def emptyOptionWarnMsg (n idx : Nat) : String :=
  "Question " ++ toString n ++ ", Option " ++ toString idx ++ ": Option text is empty."

/-- The fatal missing-quiz-type message of the validator. -/
def missingHeaderVMsg : String :=
  "Missing or invalid quiz type header. The first non-empty line must be [BEGIN#MCQ] or [BEGIN#ESSAY]."

/-- The fatal zero-questions message of the validator. -/
def noQuestionsMsg : String :=
  "No questions found. Please add at least one [QUESTION] / [QUESTION#n] block."

/-- Embedding of `QuizValidator._normalizeOptionLine_` for parser-produced
options, whose `choiceText` is always a string: trim, then collapse
whitespace runs (no lowercasing, punctuation kept).  The `_stripHtml_`
fallback of the source only runs when `choiceText` is not a string, which
never holds for options built by `QuizParser.parse`. -/
def normalizeOptionLine (o : QOption) : String :=
  collapseWs (trimS o.choiceText)

/-- The duplicate-detection fold of validation rule 4: `seen` is the set
of normalized keys already assigned to an earlier option; empty keys are
skipped entirely; a later occurrence of a seen key is an error naming the
key, at the option's line (falling back to the question's line). -/
def dupLoop (n qline : Nat) : List QOption → List String → List VErr
  | [], _ => []
  | o :: rest, seen =>
    let key := normalizeOptionLine o
    if key = "" then dupLoop n qline rest seen
    else if seen.contains key then
      ⟨duplicateMsg n key, jsOrNat o.line qline⟩ :: dupLoop n qline rest seen
    else dupLoop n qline rest (key :: seen)

/-- The empty-option-text warning scan (rule 5), with 0-based index. -/
def emptyOptWarnGo (n : Nat) : Nat → List QOption → List VErr
  | _, [] => []
  | idx, o :: rest =>
    (if trimS o.text = "" then [⟨emptyOptionWarnMsg n (idx + 1), o.line⟩] else []) ++
      emptyOptWarnGo n (idx + 1) rest

/-- The line reported by the ESSAY options error:
`q.optionsTagLine || (q.options && q.options[0] && q.options[0].line) || q.line`. -/
def essayOptionsLine (q : PQuestion) : Nat :=
  jsOrNat q.optionsTagLine
    (jsOrNat (match q.options.head? with | some o => o.line | none => 0) q.line)

/-- The number of options marked correct. -/
def correctCount (q : PQuestion) : Nat :=
  (q.options.filter (fun o => o.isCorrect)).length

/-- The errors `QuizValidator.validate` pushes for one question, in the
source's rule order. -/
def questionErrors (qt : QuizType) (q : PQuestion) : List VErr :=
  let contentE :=
    if trimS q.content = "" then [⟨contentEmptyMsg q.num, q.line⟩] else []
  match qt with
  | .ESSAY =>
      contentE ++
        (if q.hasOptionsTag || q.options.length > 0 then
          [⟨essayOptionsMsg q.num, essayOptionsLine q⟩]
        else [])
  | .MCQ =>
      contentE ++
        (if !q.hasOptionsTag then [⟨missingOptionsMsg q.num, q.line⟩] else []) ++
        (if q.options.length < 2 then
          [⟨needsTwoMsg q.num q.options.length, jsOrNat q.optionsTagLine q.line⟩]
        else []) ++
        (let c := correctCount q
         if c = 0 then [⟨noCorrectMsg q.num, q.line⟩]
         else if c > 1 then [⟨multipleCorrectMsg q.num c, q.line⟩]
         else []) ++
        dupLoop q.num q.line q.options []

/-- The warnings `QuizValidator.validate` pushes for one question (the
ESSAY branch returns before the option scan). -/
def questionWarnings (qt : QuizType) (q : PQuestion) : List VErr :=
  match qt with
  | .ESSAY => []
  | .MCQ => emptyOptWarnGo q.num 0 q.options

/-- Embedding of `QuizValidator.validate`. -/
def validate (pr : ParseResult) : VResult :=
  match pr.quizType with
  | none => ⟨false, [⟨missingHeaderVMsg, 0⟩], []⟩
  | some qt =>
    if pr.questions.length = 0 then ⟨false, [⟨noQuestionsMsg, 0⟩], []⟩
    else
      let errs := (pr.questions.map (questionErrors qt)).flatten
      let warns := (pr.questions.map (questionWarnings qt)).flatten
      ⟨errs.isEmpty, errs, warns⟩

/-- One exported option (`{content, is_correct}`). -/
structure ExportOption where
  content : String
  is_correct : Bool
  deriving DecidableEq

/-- One exported question of `quiz.json`. -/
structure ExportQuestion where
  id : String
  content : String
  descriptions : Option String
  options : List ExportOption
  deriving DecidableEq

/-- The metadata object of `quiz.json`; `generated_at` carries the
timestamp `new Date().toISOString()` produced at export time. -/
structure ExportMeta where
  generated_at : String
  quiz_type : Option QuizType
  question_count : Nat
  deriving DecidableEq

/-- The JSON document written to `quiz.json`, kept structurally (the
pretty-printed text is a fixed formatting of this value). -/
structure ExportJson where
  metadata : ExportMeta
  questions : List ExportQuestion
  deriving DecidableEq

/-- The ZIP produced by `QuizExporter.generateZip`: the `quiz.json` entry
and the image blobs, in entry order, under the archive name. -/
structure ZipOutput where
  json : ExportJson
  assets : List Blob
  zipName : String
  deriving DecidableEq

/-- The exported `descriptions` field:
`(typeof d === 'string' && d.trim() !== '') ? d : null`. -/
def exportDescriptions : Option String → Option String
  | some s => if trimS s ≠ "" then some s else none
  | none => none

/-- Embedding of `QuizExporter.generateZip`.  `now` is the timestamp the
source takes from `new Date()`.  The JS `blob.setName('images/' + filename)`
mutates the very blob objects stored in `parseResult.images`, so the
function returns, along with the ZIP, the parse result as it stands after
the call. -/
def generateZip (now : String) (pr : ParseResult) : ZipOutput × ParseResult :=
  let exportJson : ExportJson :=
    { metadata :=
        { generated_at := now
          quiz_type := pr.quizType
          question_count := pr.questions.length }
      questions := pr.questions.map (fun q =>
        { id := q.id
          content := q.content
          descriptions := exportDescriptions q.descriptions
          options := q.options.map (fun o =>
            { content := o.text, is_correct := o.isCorrect }) }) }
  let renamedImages := pr.images.map (fun kv => (kv.1, { kv.2 with name := "images/" ++ kv.1 }))
  ({ json := exportJson
     assets := renamedImages.map Prod.snd
     zipName := "quiz_export.zip" },
   { pr with images := renamedImages })

instance : Inhabited ParseResult := ⟨{}⟩

/-- A validator input model with the given type and questions. -/
def mkModel (qt : QuizType) (qs : List PQuestion) : ParseResult :=
  { quizType := some qt, questions := qs }

/-- Claim-side restatement of the header rule (C8), following the claim's
wording: scanning blocks in order and skipping paragraphs/list items with
empty trimmed text, the first remaining block must be a paragraph or list
item whose trimmed text is exactly `[BEGIN#MCQ]` or `[BEGIN#ESSAY]`; any
other non-empty block kind, or a non-matching text, is a violation. -/
def headerClaimOk : List Block → Bool
  | [] => false
  | b :: rest =>
    if isTextBlock b then
      let t := blockTrimText b
      if t = "" then headerClaimOk rest
      else t = "[BEGIN#MCQ]" || t = "[BEGIN#ESSAY]"
    else false

/-- Claim-side notion of a non-tag block text (C10): the text of a block
that triggers none of the parser's tag branches. -/
def isNonTagText (t : String) : Bool :=
  !strHasPre "[BEGIN#" t && !strHasPre "[QUESTION" t &&
    !strHasPre "[OPTIONS]" t && !strHasPre "[DESCRIPTIONS]" t

/-- The numbering invariant on a finished question list: the question at
0-based position `k` carries `num = k+1` and `id = "q(k+1)"`. -/
def NumberedList (qs : List PQuestion) : Prop :=
  ∀ k q, qs.get? k = some q → q.num = k + 1 ∧ q.id = "q" ++ toString (k + 1)

/-- The numbering invariant of the parse loop state: closed questions are
densely numbered and the open question (if any) is next in line. -/
def StInv (st : PState) : Prop :=
  NumberedList st.questions ∧
    ∀ q, st.current = some q →
      q.num = st.questions.length + 1 ∧ q.id = "q" ++ toString (st.questions.length + 1)

/-- A one-run plain paragraph block. -/
def mkPara (s : String) : Block :=
  .para [.text [{ text := s }]]

/-- A one-run plain list item block (lettered list). -/
def mkLi (s : String) : Block :=
  .listItem [.text [{ text := s }]] .latinUpper

/-- An ESSAY document in which a question is followed by `[OPTIONS]`. -/
def c1Doc : List Block :=
  [mkPara "[BEGIN#ESSAY]", mkPara "[QUESTION#1] Describe the water cycle.", mkPara "[OPTIONS]"]

/-- A parse loop state with a question open (for exercising `step`). -/
def c1MidState : PState :=
  { current := some (createQuestionObj 1 2), mode := .READING_QUESTION }

/-- A Quiz Model holding one stored image blob. -/
def c2Model : ParseResult :=
  { quizType := some .MCQ
    questions := []
    images := [("q1_img_001.png", { name := "doc-image-1", contentType := "image/png", data := "PNGBYTES" })] }

/-- A document whose question tags carry labels 99 and 1, in that order. -/
def c3Doc : List Block :=
  [mkPara "[BEGIN#MCQ]", mkPara "[QUESTION#99] First?", mkPara "[QUESTION#1] Second?"]

/-- The model parsed from `c3Doc`. -/
def c3Res : ParseResult :=
  (parse c3Doc).toOption.getD {}

/-- An MCQ document with two options whose visible text agrees after
marker stripping: a bold `<> blue` list item and a plain `blue` one. -/
def c5Doc : List Block :=
  [mkPara "[BEGIN#MCQ]", mkPara "[QUESTION#1] Favourite colour?", mkPara "[OPTIONS]",
   .listItem [.text [{ text := "<> blue", bold := true }]] .latinUpper,
   mkLi "blue"]

/-- The single question parsed from `c5Doc`. -/
def c5Q : PQuestion :=
  ((parse c5Doc).toOption.getD {}).questions.getD 0 default

/-- A question with one empty-text option (for the C9 witness). -/
def c9qW : PQuestion :=
  { createQuestionObj 1 2 with
      content := "<p>Pick one</p>"
      hasOptionsTag := true
      optionsTagLine := 3
      options := [{ id := "opt_0", text := "", choiceText := "", isCorrect := true, line := 4 }] }

/-- A question whose two options are image-only: their normalized
`choiceText` is empty while their HTML `text` is not. -/
def c9qC : PQuestion :=
  { createQuestionObj 1 2 with
      content := "<p>Pick the picture</p>"
      hasOptionsTag := true
      optionsTagLine := 3
      options :=
        [{ id := "opt_0"
           text := "<img src=\"images/q1_img_001.png\" style=\"max-width: 100%; height: auto;\" />"
           choiceText := "", isCorrect := true, line := 4 },
         { id := "opt_1"
           text := "<img src=\"images/q1_img_002.png\" style=\"max-width: 100%; height: auto;\" />"
           choiceText := "", isCorrect := false, line := 5 }] }

/-- A plain content block carrying no tag. -/
def c10Block : Block :=
  mkPara "Some introductory text before the first question."

/-- A document whose first non-empty line is not a header tag. -/
def c8DocA : List Block :=
  [mkPara "", mkPara "Hello world"]

/-- A document with a stray second `[BEGIN#...]` tag after the header. -/
def c8DocB : List Block :=
  [mkPara "[BEGIN#MCQ]", mkPara "[QUESTION#1] Q?", mkPara "[BEGIN#MCQ]"]

lemma str_data_append (a b : String) : (a ++ b).data = a.data ++ b.data := by
  cases a
  cases b
  rfl

lemma str_data_inj {a b : String} (h : a.data = b.data) : a = b := by
  cases a
  cases b
  exact congrArg String.mk h

lemma str_append_cancel_left {p a b : String} (h : p ++ a = p ++ b) : a = b := by
  apply str_data_inj
  have hd := congrArg String.data h
  rw [str_data_append, str_data_append] at hd
  exact List.append_cancel_left hd

lemma strHasPre_iff (p s : String) :
    strHasPre p s = true ↔ s.data.take p.data.length = p.data := by
  simp [strHasPre]

lemma strHasPre_ne_empty {p s : String} (hp : p.data ≠ []) (h : strHasPre p s = true) :
    s ≠ "" := by
  intro hs
  rw [strHasPre_iff] at h
  subst hs
  simp at h
  exact hp h

lemma strHasPre_excl (p q : String) (hlen : p.data.length ≤ q.data.length)
    (hne : q.data.take p.data.length ≠ p.data) :
    ∀ s, strHasPre q s = true → strHasPre p s = false := by
  intro s h
  rw [strHasPre_iff] at h
  rw [Bool.eq_false_iff]
  intro hp
  rw [strHasPre_iff] at hp
  apply hne
  rw [← h, List.take_take, Nat.min_eq_left hlen, hp]

lemma dropWhile_head?_false (p : Char → Bool) :
    ∀ (l : List Char) (c : Char), (l.dropWhile p).head? = some c → p c = false := by
  intro l
  induction l with
  | nil => intro c h; simp at h
  | cons a as ih =>
      intro c h
      by_cases ha : p a
      · rw [List.dropWhile_cons_of_pos ha] at h
        exact ih c h
      · rw [List.dropWhile_cons_of_neg ha] at h
        simp at h
        subst h
        simpa using ha

lemma dropWhile_eq_self (p : Char → Bool) (l : List Char)
    (h : ∀ c, l.head? = some c → p c = false) : l.dropWhile p = l := by
  cases l with
  | nil => rfl
  | cons a as =>
      have := h a rfl
      simp [List.dropWhile_cons, this]

lemma dropWhile_idem (p : Char → Bool) (l : List Char) :
    (l.dropWhile p).dropWhile p = l.dropWhile p :=
  dropWhile_eq_self p _ (dropWhile_head?_false p l)

lemma getLast?_dropWhile (p : Char → Bool) :
    ∀ l : List Char, l.dropWhile p ≠ [] → (l.dropWhile p).getLast? = l.getLast? := by
  intro l
  induction l with
  | nil => intro h; simp at h
  | cons a as ih =>
      intro h
      by_cases ha : p a
      · rw [List.dropWhile_cons_of_pos ha] at h ⊢
        rw [ih h]
        cases as with
        | nil => simp at h
        | cons b bs => simp
      · rw [List.dropWhile_cons_of_neg ha]

lemma trimL_idem (l : List Char) : trimL (trimL l) = trimL l := by
  unfold trimL
  set A := l.dropWhile isWsJS with hA
  set B := A.reverse.dropWhile isWsJS with hB
  have h1 : B.reverse.dropWhile isWsJS = B.reverse := by
    apply dropWhile_eq_self
    intro c hc
    rw [List.head?_reverse] at hc
    by_cases hBnil : B = []
    · rw [hBnil] at hc; simp at hc
    · rw [hB, getLast?_dropWhile _ _ (hB ▸ hBnil), List.getLast?_reverse] at hc
      exact dropWhile_head?_false _ _ _ hc
  rw [h1, List.reverse_reverse, hB, dropWhile_idem]

lemma trimS_idem (s : String) : trimS (trimS s) = trimS s := by
  unfold trimS
  rw [trimL_idem]

lemma trimS_blockTrimText (b : Block) : trimS (blockTrimText b) = blockTrimText b := by
  cases b <;> simp [blockTrimText, trimS_idem] <;> rfl

lemma str_append_cancel_right {a b p : String} (h : a ++ p = b ++ p) : a = b := by
  apply str_data_inj
  have hd := congrArg String.data h
  rw [str_data_append, str_data_append] at hd
  exact List.append_cancel_right hd

lemma ne_of_qpre_suffix {n : Nat} {x y : String} (h : x.data.take 2 ≠ y.data.take 2) :
    qpre n ++ x ≠ qpre n ++ y := by
  intro he
  exact h (by rw [str_append_cancel_left he])

lemma take2_append_str (a b : String) (h : 2 ≤ a.data.length) :
    (a ++ b).data.take 2 = a.data.take 2 := by
  rw [str_data_append]
  exact List.take_append_of_le_length h

lemma contentEmptyMsg_ne_noCorrectMsg (n : Nat) : contentEmptyMsg n ≠ noCorrectMsg n := by
  unfold contentEmptyMsg noCorrectMsg
  exact ne_of_qpre_suffix (by decide)

lemma contentEmptyMsg_ne_multipleCorrectMsg (n c : Nat) :
    contentEmptyMsg n ≠ multipleCorrectMsg n c := by
  unfold contentEmptyMsg multipleCorrectMsg
  rw [String.append_assoc, String.append_assoc]
  apply ne_of_qpre_suffix
  rw [take2_append_str _ _ (by decide)]
  decide

lemma contentEmptyMsg_ne_duplicateMsg (n : Nat) (k : String) :
    contentEmptyMsg n ≠ duplicateMsg n k := by
  unfold contentEmptyMsg duplicateMsg
  rw [String.append_assoc, String.append_assoc]
  apply ne_of_qpre_suffix
  rw [take2_append_str _ _ (by decide)]
  decide

lemma missingOptionsMsg_ne_noCorrectMsg (n : Nat) : missingOptionsMsg n ≠ noCorrectMsg n := by
  unfold missingOptionsMsg noCorrectMsg
  exact ne_of_qpre_suffix (by decide)

lemma missingOptionsMsg_ne_multipleCorrectMsg (n c : Nat) :
    missingOptionsMsg n ≠ multipleCorrectMsg n c := by
  unfold missingOptionsMsg multipleCorrectMsg
  rw [String.append_assoc, String.append_assoc]
  apply ne_of_qpre_suffix
  rw [take2_append_str _ _ (by decide)]
  decide

lemma missingOptionsMsg_ne_duplicateMsg (n : Nat) (k : String) :
    missingOptionsMsg n ≠ duplicateMsg n k := by
  unfold missingOptionsMsg duplicateMsg
  rw [String.append_assoc, String.append_assoc]
  apply ne_of_qpre_suffix
  rw [take2_append_str _ _ (by decide)]
  decide

lemma needsTwoMsg_ne_noCorrectMsg (n c : Nat) : needsTwoMsg n c ≠ noCorrectMsg n := by
  unfold needsTwoMsg noCorrectMsg
  rw [String.append_assoc, String.append_assoc]
  apply ne_of_qpre_suffix
  rw [take2_append_str _ _ (by decide)]
  decide

lemma needsTwoMsg_ne_multipleCorrectMsg (n c c' : Nat) :
    needsTwoMsg n c ≠ multipleCorrectMsg n c' := by
  unfold needsTwoMsg multipleCorrectMsg
  rw [String.append_assoc, String.append_assoc, String.append_assoc, String.append_assoc]
  apply ne_of_qpre_suffix
  rw [take2_append_str _ _ (by decide), take2_append_str _ _ (by decide)]
  decide

lemma needsTwoMsg_ne_duplicateMsg (n c : Nat) (k : String) :
    needsTwoMsg n c ≠ duplicateMsg n k := by
  unfold needsTwoMsg duplicateMsg
  rw [String.append_assoc, String.append_assoc, String.append_assoc, String.append_assoc]
  apply ne_of_qpre_suffix
  rw [take2_append_str _ _ (by decide), take2_append_str _ _ (by decide)]
  decide

lemma noCorrectMsg_ne_multipleCorrectMsg (n c : Nat) :
    noCorrectMsg n ≠ multipleCorrectMsg n c := by
  unfold noCorrectMsg multipleCorrectMsg
  rw [String.append_assoc, String.append_assoc]
  apply ne_of_qpre_suffix
  rw [take2_append_str _ _ (by decide)]
  decide

lemma noCorrectMsg_ne_duplicateMsg (n : Nat) (k : String) :
    noCorrectMsg n ≠ duplicateMsg n k := by
  unfold noCorrectMsg duplicateMsg
  rw [String.append_assoc, String.append_assoc]
  apply ne_of_qpre_suffix
  rw [take2_append_str _ _ (by decide)]
  decide

lemma multipleCorrectMsg_ne_duplicateMsg (n c : Nat) (k : String) :
    multipleCorrectMsg n c ≠ duplicateMsg n k := by
  unfold multipleCorrectMsg duplicateMsg
  rw [String.append_assoc, String.append_assoc, String.append_assoc, String.append_assoc]
  apply ne_of_qpre_suffix
  rw [take2_append_str _ _ (by decide), take2_append_str _ _ (by decide)]
  decide

lemma duplicateMsg_inj {n : Nat} {k1 k2 : String} (h : duplicateMsg n k1 = duplicateMsg n k2) :
    k1 = k2 := by
  unfold duplicateMsg at h
  simp only [String.append_assoc] at h
  have h1 := str_append_cancel_left (str_append_cancel_left h)
  exact str_append_cancel_right h1

lemma validate_mkModel (qt : QuizType) (q : PQuestion) :
    validate (mkModel qt [q]) =
      ⟨(questionErrors qt q).isEmpty, questionErrors qt q, questionWarnings qt q⟩ := by
  simp [validate, mkModel]

lemma count_single_of_ne {x m : String} (h : x ≠ m) : ([x].count m) = 0 := by
  simp [List.count_eq_zero]
  exact fun hc => h hc.symm

lemma count_ite_single (c : Prop) [Decidable c] (e : VErr) (m : String) (h : e.message ≠ m) :
    (((if c then [e] else []).map VErr.message).count m) = 0 := by
  split
  · simpa using count_single_of_ne h
  · rfl

lemma dupLoop_mem_message (n ql : Nat) :
    ∀ (l : List QOption) (seen : List String) (e : VErr), e ∈ dupLoop n ql l seen →
      ∃ k, k ≠ "" ∧ e.message = duplicateMsg n k := by
  intro l
  induction l with
  | nil => intro seen e he; simp [dupLoop] at he
  | cons o rest ih =>
      intro seen e he
      by_cases hk : normalizeOptionLine o = ""
      · rw [dupLoop, if_pos hk] at he
        exact ih seen e he
      · by_cases hs : seen.contains (normalizeOptionLine o)
        · rw [dupLoop, if_neg hk, if_pos hs] at he
          rcases List.mem_cons.mp he with h1 | h2
          · exact ⟨normalizeOptionLine o, hk, by rw [h1]⟩
          · exact ih seen e h2
        · rw [dupLoop, if_neg hk, if_neg hs] at he
          exact ih _ e he

lemma count_dupLoop_other (n ql : Nat) (m : String)
    (hm : ∀ k, k ≠ "" → duplicateMsg n k ≠ m) (l : List QOption) (seen : List String) :
    ((dupLoop n ql l seen).map VErr.message).count m = 0 := by
  rw [List.count_eq_zero]
  intro hmem
  rw [List.mem_map] at hmem
  obtain ⟨e, he, hme⟩ := hmem
  obtain ⟨k, hk, hke⟩ := dupLoop_mem_message n ql l seen e he
  exact hm k hk (by rw [← hke, hme])

lemma dupLoop_count (n ql : Nat) (K : String) (hK : K ≠ "") :
    ∀ (l : List QOption) (seen : List String),
      ((dupLoop n ql l seen).map VErr.message).count (duplicateMsg n K)
        = (l.countP (fun o => normalizeOptionLine o == K)) - (if seen.contains K then 0 else 1) := by
  intro l
  induction l with
  | nil =>
      intro seen
      simp [dupLoop]
  | cons o rest ih =>
      intro seen
      by_cases hk0 : normalizeOptionLine o = ""
      · rw [dupLoop, if_pos hk0, List.countP_cons]
        have hno : (normalizeOptionLine o == K) = false := by
          simp [hk0]
          exact fun h => hK h.symm
        rw [hno]
        simpa using ih seen
      · by_cases hseen : seen.contains (normalizeOptionLine o)
        · rw [dupLoop, if_neg hk0, if_pos hseen, List.map_cons, List.count_cons, List.countP_cons]
          by_cases hkK : normalizeOptionLine o = K
          · have hbe : (duplicateMsg n (normalizeOptionLine o) == duplicateMsg n K) = true := by
              simp [hkK]
            have hpe : (normalizeOptionLine o == K) = true := by simp [hkK]
            rw [hbe, hpe, ih seen]
            rw [hkK] at hseen
            rw [if_pos hseen]
            omega
          · have hbe : (duplicateMsg n (normalizeOptionLine o) == duplicateMsg n K) = false := by
              simp
              intro h
              exact hkK (duplicateMsg_inj h)
            have hpe : (normalizeOptionLine o == K) = false := by simp [hkK]
            rw [hbe, hpe, ih seen]
            simp
        · rw [dupLoop, if_neg hk0, if_neg hseen, List.countP_cons]
          by_cases hkK : normalizeOptionLine o = K
          · have hpe : (normalizeOptionLine o == K) = true := by simp [hkK]
            rw [hpe, ih]
            have hc1 : ((normalizeOptionLine o :: seen).contains K) = true := by
              simp [List.contains_cons, hkK]
            have hc2 : (seen.contains K) = false := by
              rw [← hkK]
              simpa using hseen
            rw [hc1, hc2]
            simp
          · have hpe : (normalizeOptionLine o == K) = false := by simp [hkK]
            have hcc : ((normalizeOptionLine o :: seen).contains K) = (seen.contains K) := by
              simp [List.contains_cons]
              intro h
              exact absurd h.symm hkK
            rw [hpe, ih, hcc]
            simp

/-- C6: For every MCQ question, the validator emits a correct-answer-count
error iff the number of options with `isCorrect = true` differs from 1:
exactly one error with the zero-correct message when the count is 0, and
exactly one error with the multiple-correct message reporting the count
when it exceeds 1 (in particular, "Multiple correct answers found (2)"
when two options are marked correct); no such error otherwise. -/
theorem c6_correct_answer_count (q : PQuestion) :
    (((validate (mkModel .MCQ [q])).errors.map VErr.message).count (noCorrectMsg q.num)
        = if correctCount q = 0 then 1 else 0)
    ∧ (((validate (mkModel .MCQ [q])).errors.map VErr.message).count
          (multipleCorrectMsg q.num (correctCount q))
        = if 2 ≤ correctCount q then 1 else 0) := by
  rw [validate_mkModel]
  unfold questionErrors
  simp only [List.map_append, List.count_append]
  constructor
  · rw [count_ite_single _ _ _ (contentEmptyMsg_ne_noCorrectMsg q.num),
      count_ite_single _ _ _ (missingOptionsMsg_ne_noCorrectMsg q.num),
      count_ite_single _ _ _ (needsTwoMsg_ne_noCorrectMsg q.num q.options.length),
      count_dupLoop_other _ _ _ (fun k _ => (noCorrectMsg_ne_duplicateMsg q.num k).symm)]
    by_cases h0 : correctCount q = 0
    · simp [h0]
    · by_cases h1 : correctCount q > 1
      · have : ¬(correctCount q = 0) := h0
        simp only [h0, if_false, h1, if_true, this]
        simp [h0, h1, count_single_of_ne ((noCorrectMsg_ne_multipleCorrectMsg q.num (correctCount q)).symm)]
      · simp [h0, h1]
  · rw [count_ite_single _ _ _ (contentEmptyMsg_ne_multipleCorrectMsg q.num (correctCount q)),
      count_ite_single _ _ _ (missingOptionsMsg_ne_multipleCorrectMsg q.num (correctCount q)),
      count_ite_single _ _ _ (needsTwoMsg_ne_multipleCorrectMsg q.num q.options.length (correctCount q)),
      count_dupLoop_other _ _ _ (fun k _ => (multipleCorrectMsg_ne_duplicateMsg q.num (correctCount q) k).symm)]
    by_cases h0 : correctCount q = 0
    · simp [h0]
      exact count_single_of_ne (noCorrectMsg_ne_multipleCorrectMsg q.num 0)
    · by_cases h1 : correctCount q > 1
      · have h2 : 2 ≤ correctCount q := h1
        simp [h0, h1, h2]
      · have h2 : ¬(2 ≤ correctCount q) := by omega
        simp [h0, h1, h2]

/-- C5: For every MCQ question, duplicate-option detection compares
options by their normalized `choiceText` (plain text, marker stripped,
whitespace collapsed, case- and punctuation-sensitive): among the
validator's errors there are exactly "number of options with a given
non-empty normalized text, minus one" errors carrying the duplicate
message naming that text — the first occurrence is kept, every later one
is flagged.  The normalization reads only `choiceText`, never the HTML
`text`, so options are compared independently of their formatting. -/
theorem c5_duplicate_detection (q : PQuestion) (K : String) (hK : K ≠ "") :
    (((validate (mkModel .MCQ [q])).errors.map VErr.message).count (duplicateMsg q.num K)
        = (q.options.countP (fun o => normalizeOptionLine o == K)) - 1)
    ∧ (∀ o1 o2 : QOption, o1.choiceText = o2.choiceText →
        normalizeOptionLine o1 = normalizeOptionLine o2) := by
  constructor
  · rw [validate_mkModel]
    unfold questionErrors
    simp only [List.map_append, List.count_append]
    rw [count_ite_single _ _ _ (contentEmptyMsg_ne_duplicateMsg q.num K),
      count_ite_single _ _ _ (missingOptionsMsg_ne_duplicateMsg q.num K),
      count_ite_single _ _ _ (needsTwoMsg_ne_duplicateMsg q.num q.options.length K),
      dupLoop_count q.num q.line K hK q.options []]
    have hcz : (([] : List String).contains K) = false := rfl
    rw [hcz]
    by_cases h0 : correctCount q = 0
    · simp [h0, count_single_of_ne (noCorrectMsg_ne_duplicateMsg q.num K)]
    · by_cases h1 : correctCount q > 1
      · simp [h0, h1, count_single_of_ne (multipleCorrectMsg_ne_duplicateMsg q.num (correctCount q) K)]
      · simp [h0, h1]
  · intro o1 o2 h
    simp [normalizeOptionLine, h]

theorem c5_witness :
    (((validate (mkModel .MCQ [c5Q])).errors.map VErr.message).count (duplicateMsg 1 "blue") = 1)
    ∧ c5Q.options.map (fun o => (o.text, o.choiceText)) =
        [("<b>blue</b>", "blue"), ("blue", "blue")] := by
  constructor
  · have h := (c5_duplicate_detection c5Q "blue" (by decide)).1
    exact h.trans (by decide)
  · decide

lemma emptyOptWarnGo_length (n : Nat) :
    ∀ (opts : List QOption) (i : Nat),
      (emptyOptWarnGo n i opts).length = (opts.filter (fun o => trimS o.text == "")).length := by
  intro opts
  induction opts with
  | nil => intro i; rfl
  | cons o rest ih =>
      intro i
      by_cases h : trimS o.text = ""
      · simp [emptyOptWarnGo, h, ih]
      · simp [emptyOptWarnGo, h, ih]

lemma emptyOptWarnGo_mem (n : Nat) :
    ∀ (opts : List QOption) (start k : Nat) (o : QOption),
      opts.get? k = some o → trimS o.text = "" →
      (⟨emptyOptionWarnMsg n (start + k + 1), o.line⟩ : VErr) ∈ emptyOptWarnGo n start opts := by
  intro opts
  induction opts with
  | nil => intro start k o h; simp at h
  | cons p rest ih =>
      intro start k o hget hempty
      cases k with
      | zero =>
          rw [List.get?_cons_zero] at hget
          injection hget with hpo
          subst hpo
          rw [emptyOptWarnGo]
          apply List.mem_append_left
          simp [hempty]
      | succ k' =>
          rw [List.get?_cons_succ] at hget
          have := ih (start + 1) k' o hget hempty
          rw [emptyOptWarnGo]
          apply List.mem_append_right
          have harith : start + 1 + k' + 1 = start + (k' + 1) + 1 := by omega
          rw [harith] at this
          exact this

/-- C9 (amended): options whose normalized `choiceText` is empty are
exempt from duplicate detection — no validator error carries the
duplicate message naming the empty text — and the empty-option-text
warning is keyed on the rendered HTML `text`, not on `choiceText`: the
warnings are exactly one per option whose HTML text is empty after trim
(so an option that is empty in plain text but has non-empty HTML, such as
an image-only option, produces neither a duplicate error nor a warning). -/
theorem c9_empty_options (q : PQuestion) :
    (∀ e ∈ (validate (mkModel .MCQ [q])).errors, e.message ≠ duplicateMsg q.num "")
    ∧ ((validate (mkModel .MCQ [q])).warnings.length
        = (q.options.filter (fun o => trimS o.text == "")).length)
    ∧ (∀ k o, q.options.get? k = some o → trimS o.text = "" →
        (⟨emptyOptionWarnMsg q.num (k + 1), o.line⟩ : VErr) ∈
          (validate (mkModel .MCQ [q])).warnings) := by
  refine ⟨?_, ?_, ?_⟩
  · rw [validate_mkModel]
    unfold questionErrors
    intro e he
    simp only [List.append_assoc, List.mem_append] at he
    rcases he with h | h | h | h | h
    · rcases Decidable.em (trimS q.content = "") with hc | hc
      · rw [if_pos hc] at h
        simp at h
        rw [h]
        exact contentEmptyMsg_ne_duplicateMsg q.num ""
      · rw [if_neg hc] at h
        simp at h
    · split at h
      · simp at h
        rw [h]
        exact missingOptionsMsg_ne_duplicateMsg q.num ""
      · simp at h
    · split at h
      · simp at h
        rw [h]
        exact needsTwoMsg_ne_duplicateMsg q.num q.options.length ""
      · simp at h
    · split at h
      · simp at h
        rw [h]
        exact noCorrectMsg_ne_duplicateMsg q.num ""
      · split at h
        · simp at h
          rw [h]
          exact multipleCorrectMsg_ne_duplicateMsg q.num (correctCount q) ""
        · simp at h
    · obtain ⟨k, hk, hke⟩ := dupLoop_mem_message q.num q.line q.options [] e h
      rw [hke]
      intro hcontra
      exact hk (duplicateMsg_inj hcontra)
  · rw [validate_mkModel]
    exact emptyOptWarnGo_length q.num q.options 0
  · intro k o hget hempty
    rw [validate_mkModel]
    have := emptyOptWarnGo_mem q.num q.options 0 k o hget hempty
    simpa using this

theorem c9_witness :
    ((validate (mkModel .MCQ [c9qW])).warnings.length = 1)
    ∧ (⟨emptyOptionWarnMsg 1 1, 4⟩ : VErr) ∈ (validate (mkModel .MCQ [c9qW])).warnings := by
  constructor
  · exact ((c9_empty_options c9qW).2.1).trans (by decide)
  · exact (c9_empty_options c9qW).2.2 0 _ rfl (by decide)

theorem c9_counterexample :
    (validate (mkModel .MCQ [c9qC])).warnings = []
    ∧ (c9qC.options.map (fun o => normalizeOptionLine o)) = ["", ""]
    ∧ (∀ e ∈ (validate (mkModel .MCQ [c9qC])).errors, e.message ≠ duplicateMsg 1 "")
    ∧ (validate (mkModel .MCQ [c9qC])).errors = [] := by
  refine ⟨by decide, by decide, ?_, by decide⟩
  intro e he
  rw [show (validate (mkModel .MCQ [c9qC])).errors = [] from by decide] at he
  simp at he

/-- C7: For every equation function node with code `frac`, the rendered
LaTeX is `\frac{numerator}{denominator}` where the numerator is the
rendering of the first argument and the denominator is the concatenation
of the renderings of all remaining arguments; in particular `frac` with
argument renderings `["100", "", "\times"]` renders as
`\frac{100}{\times}`. -/
theorem c7_frac_rendering (qid : String) (ctx : Ctx) (st : ExtractSt) (k : INode) (ks : List INode) :
    ((extractNode qid ctx (.eqFunc "frac" (k :: ks)) st).1 =
      "\\frac\x7b" ++ (extractNode qid { ctx with inEquation := true } k st).1 ++ "\x7d\x7b" ++
        String.join (extractNodes qid { ctx with inEquation := true } ks
          (extractNode qid { ctx with inEquation := true } k st).2).1 ++ "\x7d")
    ∧ (extractNode "q1" {} (.eqFunc "frac"
        [.text [{ text := "100" }], .text [{ text := "" }], .eqSym "times" ""]) {}).1
      = "\\frac\x7b100\x7d\x7b\\times\x7d" := by
  constructor
  · simp only [extractNode, extractNodes]
    rw [show stripLeadingBackslashes (trimS "frac") = "frac" from rfl]
    unfold renderEqFun
    rw [if_pos rfl]
    simp [jsIdxOr]
  · rfl

/-- C4 (amended): for an equation function node with code `root`, the
renderer produces `\sqrt[index]{base}` exactly when the node has exactly
two rendered arguments and the second (the index) renders non-empty;
in every other case — including nodes with more than two argument
children whose index renders non-empty — it produces `\sqrt{base}`. -/
theorem c4_root_amended (qid : String) (ctx : Ctx) (st : ExtractSt) (kids : List INode) :
    (extractNode qid ctx (.eqFunc "root" kids) st).1 =
      (if (extractNodes qid { ctx with inEquation := true } kids st).1.length = 2
          && jsIdxOr (extractNodes qid { ctx with inEquation := true } kids st).1 1 ≠ "" then
        "\\sqrt[" ++ jsIdx (extractNodes qid { ctx with inEquation := true } kids st).1 1 ++
          "]\x7b" ++ jsIdx (extractNodes qid { ctx with inEquation := true } kids st).1 0 ++ "\x7d"
      else
        "\\sqrt\x7b" ++ jsIdx (extractNodes qid { ctx with inEquation := true } kids st).1 0 ++ "\x7d") := by
  simp only [extractNode]
  rw [show stripLeadingBackslashes (trimS "root") = "root" from rfl]
  unfold renderEqFun
  rw [if_neg (by decide : ¬("root" : String) = "frac"), if_pos rfl]

theorem c4_counterexample :
    ((extractNode "q1" {} (.eqFunc "root"
        [.text [{ text := "x" }], .text [{ text := "2" }], .text [{ text := "y" }]]) {}).1
      = "\\sqrt\x7bx\x7d")
    ∧ ((extractNode "q1" { inEquation := true } (.text [{ text := "2" }]) {}).1 = "2")
    ∧ (("\\sqrt\x7bx\x7d" : String) ≠ "\\sqrt[2]\x7bx\x7d") := by
  refine ⟨rfl, rfl, by decide⟩

/-- C10: any block whose text triggers no tag branch, processed while no
question is open (i.e. after the header but before the first question
tag), leaves the parse state exactly unchanged — it contributes to no
question's content, descriptions, options, or images — and raises no
error. -/
theorem c10_pre_question_discard (qt : QuizType) (bl i : Nat) (b : Block) (st : PState)
    (h1 : st.current = none) (h2 : isNonTagText (blockTrimText b) = true) :
    step qt bl i b st = Except.ok st := by
  unfold isNonTagText at h2
  simp only [Bool.and_eq_true, Bool.not_eq_true'] at h2
  obtain ⟨⟨⟨hb, hq⟩, ho⟩, hd⟩ := h2
  have hqt : parseQuestionTag (blockTrimText b) = .ok none := by
    unfold parseQuestionTag
    rw [trimS_blockTrimText]
    simp [hq]
  simp [step, hqt, hb, ho, hd, h1]

theorem c10_witness : step .MCQ 1 1 c10Block {} = Except.ok {} :=
  c10_pre_question_discard .MCQ 1 1 c10Block {} rfl (by decide)

/-- C2 (amended): `generateZip` leaves the Quiz Model's `quizType`,
questions (ids, content, descriptions, options) and image-mapping keys,
MIME types and bytes unchanged, but it does mutate each stored image
blob: the blob's name is set to `images/<filename>`. -/
theorem c2_generateZip_frame (now : String) (pr : ParseResult) :
    ((generateZip now pr).2.quizType = pr.quizType)
    ∧ ((generateZip now pr).2.questions = pr.questions)
    ∧ ((generateZip now pr).2.images
        = pr.images.map (fun kv => (kv.1, { kv.2 with name := "images/" ++ kv.1 }))) :=
  ⟨rfl, rfl, rfl⟩

theorem c2_counterexample :
    ((generateZip "2026-01-01T00:00:00.000Z" c2Model).2 ≠ c2Model)
    ∧ ((generateZip "2026-01-01T00:00:00.000Z" c2Model).2.images.map (fun kv => kv.2.name)
        = ["images/q1_img_001.png"])
    ∧ (c2Model.images.map (fun kv => kv.2.name) = ["doc-image-1"]) :=
  ⟨by decide, by decide, by decide⟩

lemma exceptIsOk_error {ε α : Type} (e : ε) : (Except.error e : Except ε α).isOk = false := rfl

lemma exceptIsOk_ok {ε α : Type} (a : α) : (Except.ok a : Except ε α).isOk = true := rfl

lemma step_begin_error (qt : QuizType) (bl i : Nat) (b : Block) (st : PState)
    (h : strHasPre "[BEGIN#" (blockTrimText b) = true) :
    (step qt bl i b st).isOk = false := by
  have hne : blockTrimText b ≠ "" := strHasPre_ne_empty (by decide) h
  simp [step, h, hne, exceptIsOk_error]

lemma step_options_essay_msg (bl i : Nat) (b : Block) (st : PState) (q : PQuestion)
    (hcur : st.current = some q)
    (h : strHasPre "[OPTIONS]" (blockTrimText b) = true) :
    step QuizType.ESSAY bl i b st =
      Except.error ("Invalid [OPTIONS] for ESSAY at line " ++ toString (i + 1) ++
        ". Essay questions must not contain [OPTIONS].") := by
  have hb : strHasPre "[BEGIN#" (blockTrimText b) = false :=
    strHasPre_excl "[BEGIN#" "[OPTIONS]" (by decide) (by decide) _ h
  have hq : strHasPre "[QUESTION" (blockTrimText b) = false :=
    strHasPre_excl "[QUESTION" "[OPTIONS]" (by decide) (by decide) _ h
  have hqt : parseQuestionTag (blockTrimText b) = .ok none := by
    unfold parseQuestionTag
    rw [trimS_blockTrimText]
    simp [hq]
  simp [step, hqt, hb, h, hcur]

lemma step_options_essay_isOk (bl i : Nat) (b : Block) (st : PState)
    (h : strHasPre "[OPTIONS]" (blockTrimText b) = true) :
    (step QuizType.ESSAY bl i b st).isOk = false := by
  cases hcur : st.current with
  | some q => rw [step_options_essay_msg bl i b st q hcur h]; rfl
  | none =>
      have hb : strHasPre "[BEGIN#" (blockTrimText b) = false :=
        strHasPre_excl "[BEGIN#" "[OPTIONS]" (by decide) (by decide) _ h
      have hq : strHasPre "[QUESTION" (blockTrimText b) = false :=
        strHasPre_excl "[QUESTION" "[OPTIONS]" (by decide) (by decide) _ h
      have hqt : parseQuestionTag (blockTrimText b) = .ok none := by
        unfold parseQuestionTag
        rw [trimS_blockTrimText]
        simp [hq]
      simp [step, hqt, hb, h, hcur, exceptIsOk_error]

lemma runBlocks_err_of_bad (qt : QuizType) (bi bl : Nat) (bad : Block)
    (hbad : ∀ i st, (step qt bl i bad st).isOk = false) :
    ∀ (l : List Block) (k j : Nat), l.get? j = some bad → k + j ≠ bi →
      ∀ st, (runBlocks qt bi bl (enumFrom k l) st).isOk = false := by
  intro l
  induction l with
  | nil => intro k j h; simp at h
  | cons c rest ih =>
      intro k j hget hne st
      rw [enumFrom, runBlocks]
      by_cases hk : k = bi
      · rw [if_pos hk]
        cases j with
        | zero => exact absurd hk (by simpa using hne)
        | succ j' =>
            rw [List.get?_cons_succ] at hget
            exact ih (k + 1) j' hget (by omega) st
      · rw [if_neg hk]
        cases j with
        | zero =>
            rw [List.get?_cons_zero] at hget
            injection hget with hcb
            subst hcb
            have hb := hbad k st
            cases hstep : step qt bl k c st with
            | error e => rfl
            | ok st' => rw [hstep, exceptIsOk_ok] at hb; cases hb
        | succ j' =>
            rw [List.get?_cons_succ] at hget
            cases hstep : step qt bl k c st with
            | error e => rfl
            | ok st' => exact ih (k + 1) j' hget (by omega) st'

lemma parse_err_of_runBlocks (blocks : List Block) (bi : Nat) (qt : QuizType)
    (h1 : findBegin 0 blocks = Except.ok (bi, qt))
    (h2 : (runBlocks qt bi (bi + 1) (enumFrom 0 blocks) {}).isOk = false) :
    (parse blocks).isOk = false := by
  unfold parse
  simp only [h1]
  cases hrb : runBlocks qt bi (bi + 1) (enumFrom 0 blocks) {} with
  | error e => rfl
  | ok st => rw [hrb, exceptIsOk_ok] at h2; cases h2

lemma parseBeginTag_blockText_none (b : Block)
    (h1 : blockTrimText b ≠ "[BEGIN#MCQ]") (h2 : blockTrimText b ≠ "[BEGIN#ESSAY]") :
    parseBeginTag (blockTrimText b) = none := by
  unfold parseBeginTag
  rw [trimS_blockTrimText]
  simp [h1, h2]

lemma findBegin_err_of_not_claim :
    ∀ (blocks : List Block) (i : Nat),
      headerClaimOk blocks = false → (findBegin i blocks).isOk = false := by
  intro blocks
  induction blocks with
  | nil => intro i _; rfl
  | cons b rest ih =>
      intro i h
      by_cases htb : isTextBlock b
      · by_cases hemp : blockTrimText b = ""
        · simp only [headerClaimOk, htb, if_true, hemp] at h
          simp only [findBegin, htb, if_true, hemp]
          exact ih (i + 1) h
        · simp only [headerClaimOk, htb, if_true, hemp, if_neg, if_false,
            Bool.or_eq_false_iff, decide_eq_false_iff_not] at h
          simp only [findBegin, htb, if_true, hemp, if_neg, if_false,
            parseBeginTag_blockText_none b h.1 h.2]
          rfl
      · simp only [findBegin, htb, if_false]
        rfl

/-- C8: parse fails unless the first block with non-empty text is a
paragraph or list item whose trimmed text is exactly `[BEGIN#MCQ]` or
`[BEGIN#ESSAY]` (any other non-empty block kind before a match, or a
non-matching text, fails parsing, per `headerClaimOk`); and parse also
fails whenever any block other than the header has text beginning with
`[BEGIN#`. -/
theorem c8_header_rule (blocks : List Block) :
    (headerClaimOk blocks = false → (parse blocks).isOk = false)
    ∧ (∀ bi qt, findBegin 0 blocks = Except.ok (bi, qt) →
        ∀ j b, blocks.get? j = some b → j ≠ bi →
          strHasPre "[BEGIN#" (blockTrimText b) = true → (parse blocks).isOk = false) := by
  constructor
  · intro h
    unfold parse
    cases hfb : findBegin 0 blocks with
    | error e => rfl
    | ok p =>
        have hbad := findBegin_err_of_not_claim blocks 0 h
        rw [hfb, exceptIsOk_ok] at hbad
        cases hbad
  · intro bi qt hfb j b hget hne hpre
    apply parse_err_of_runBlocks blocks bi qt hfb
    exact runBlocks_err_of_bad qt bi (bi + 1) b
      (fun i st => step_begin_error qt (bi + 1) i b st hpre)
      blocks 0 j hget (by omega) {}

theorem c8_witness :
    ((parse c8DocA).isOk = false) ∧ ((parse c8DocB).isOk = false) := by
  constructor
  · exact (c8_header_rule c8DocA).1 (by decide)
  · exact (c8_header_rule c8DocB).2 0 .MCQ rfl 2 (mkPara "[BEGIN#MCQ]") rfl
      (by decide) (by decide)

/-- C1 (amended): for a document whose header is `[BEGIN#ESSAY]`, the
presence of any non-header block whose text starts with `[OPTIONS]` makes
`parse` itself fail — validation is never reached — and the step that
processes such a block while a question is open aborts with the
"Invalid [OPTIONS] for ESSAY" parse error naming the offending line. -/
theorem c1_essay_options_abort (blocks : List Block) (bi : Nat)
    (h1 : findBegin 0 blocks = Except.ok (bi, QuizType.ESSAY))
    (j : Nat) (b : Block) (h2 : blocks.get? j = some b) (h3 : j ≠ bi)
    (h4 : strHasPre "[OPTIONS]" (blockTrimText b) = true) :
    ((parse blocks).isOk = false)
    ∧ (∀ (bl i : Nat) (st : PState) (q : PQuestion), st.current = some q →
        step QuizType.ESSAY bl i b st =
          Except.error ("Invalid [OPTIONS] for ESSAY at line " ++ toString (i + 1) ++
            ". Essay questions must not contain [OPTIONS].")) := by
  constructor
  · apply parse_err_of_runBlocks blocks bi .ESSAY h1
    exact runBlocks_err_of_bad .ESSAY bi (bi + 1) b
      (fun i st => step_options_essay_isOk (bi + 1) i b st h4)
      blocks 0 j h2 (by omega) {}
  · intro bl i st q hcur
    exact step_options_essay_msg bl i b st q hcur h4

theorem c1_witness :
    ((parse c1Doc).isOk = false)
    ∧ (step QuizType.ESSAY 1 2 (mkPara "[OPTIONS]") c1MidState =
        Except.error "Invalid [OPTIONS] for ESSAY at line 3. Essay questions must not contain [OPTIONS].") := by
  have h := c1_essay_options_abort c1Doc 0 rfl 2 (mkPara "[OPTIONS]") rfl (by decide) (by decide)
  exact ⟨h.1, h.2 1 2 c1MidState (createQuestionObj 1 2) rfl⟩

theorem c1_counterexample :
    parse c1Doc =
      Except.error "Invalid [OPTIONS] for ESSAY at line 3. Essay questions must not contain [OPTIONS]." := rfl

lemma closeQuestionListIfOpen_num (q : PQuestion) :
    (closeQuestionListIfOpen q).num = q.num := by
  unfold closeQuestionListIfOpen
  split <;> rfl

lemma closeQuestionListIfOpen_id (q : PQuestion) :
    (closeQuestionListIfOpen q).id = q.id := by
  unfold closeQuestionListIfOpen
  split <;> rfl

lemma closeDescriptionListIfOpen_num (q : PQuestion) :
    (closeDescriptionListIfOpen q).num = q.num := by
  unfold closeDescriptionListIfOpen
  split <;> rfl

lemma closeDescriptionListIfOpen_id (q : PQuestion) :
    (closeDescriptionListIfOpen q).id = q.id := by
  unfold closeDescriptionListIfOpen
  split <;> rfl

lemma closeBothLists_num (q : PQuestion) : (closeBothLists q).num = q.num := by
  unfold closeBothLists
  rw [closeDescriptionListIfOpen_num, closeQuestionListIfOpen_num]

lemma closeBothLists_id (q : PQuestion) : (closeBothLists q).id = q.id := by
  unfold closeBothLists
  rw [closeDescriptionListIfOpen_id, closeQuestionListIfOpen_id]

lemma finalizeQuestion_num (q : PQuestion) : (finalizeQuestion q).num = q.num := rfl

lemma finalizeQuestion_id (q : PQuestion) : (finalizeQuestion q).id = q.id := rfl

lemma readQuestionContent_num (b : Block) (q : PQuestion) (imgs : List (String × Blob)) :
    (readQuestionContent b q imgs).1.num = q.num ∧ (readQuestionContent b q imgs).1.id = q.id := by
  cases b with
  | para kids =>
      constructor <;>
        (simp only [readQuestionContent]
         split <;> simp [closeQuestionListIfOpen_num, closeQuestionListIfOpen_id])
  | table rows =>
      exact ⟨by simp [readQuestionContent, closeQuestionListIfOpen_num],
        by simp [readQuestionContent, closeQuestionListIfOpen_id]⟩
  | listItem kids g =>
      constructor <;>
        (simp only [readQuestionContent]
         split <;> simp [closeQuestionListIfOpen_num, closeQuestionListIfOpen_id])
  | other => exact ⟨rfl, rfl⟩

lemma readDescriptionsContent_num (b : Block) (q : PQuestion) (imgs : List (String × Blob)) :
    (readDescriptionsContent b q imgs).1.num = q.num ∧
      (readDescriptionsContent b q imgs).1.id = q.id := by
  cases b with
  | para kids =>
      constructor <;>
        (simp only [readDescriptionsContent]
         split <;> simp [closeDescriptionListIfOpen_num, closeDescriptionListIfOpen_id])
  | table rows =>
      exact ⟨by simp [readDescriptionsContent, closeDescriptionListIfOpen_num],
        by simp [readDescriptionsContent, closeDescriptionListIfOpen_id]⟩
  | listItem kids g =>
      constructor <;>
        (simp only [readDescriptionsContent]
         split <;> simp [closeDescriptionListIfOpen_num, closeDescriptionListIfOpen_id])
  | other => exact ⟨rfl, rfl⟩

lemma readOptionsContent_num (i : Nat) (b : Block) (q : PQuestion) (imgs : List (String × Blob)) :
    (readOptionsContent i b q imgs).1.num = q.num ∧
      (readOptionsContent i b q imgs).1.id = q.id := by
  cases b <;> exact ⟨rfl, rfl⟩

lemma createQuestionObj_num (n l : Nat) : (createQuestionObj n l).num = n := rfl

lemma createQuestionObj_id (n l : Nat) : (createQuestionObj n l).id = "q" ++ toString n := rfl

lemma NumberedList_nil : NumberedList [] := by
  intro k q h
  simp at h

lemma NumberedList_append (qs : List PQuestion) (q : PQuestion) (h : NumberedList qs)
    (hn : q.num = qs.length + 1) (hi : q.id = "q" ++ toString (qs.length + 1)) :
    NumberedList (qs ++ [q]) := by
  intro k x hget
  by_cases hk : k < qs.length
  · rw [List.get?_append hk] at hget
    exact h k x hget
  · have hge : qs.length ≤ k := Nat.le_of_not_lt hk
    rw [List.get?_append_right hge] at hget
    cases hkk : k - qs.length with
    | zero =>
        rw [hkk, List.get?_cons_zero] at hget
        injection hget with hx
        subst hx
        have hkl : k = qs.length := by omega
        subst hkl
        exact ⟨hn, hi⟩
    | succ m =>
        rw [hkk, List.get?_cons_succ] at hget
        simp at hget

lemma NumberedList_map_finalize (qs : List PQuestion) (h : NumberedList qs) :
    NumberedList (qs.map finalizeQuestion) := by
  intro k x hget
  rw [List.get?_map] at hget
  cases hq : qs.get? k with
  | none => rw [hq] at hget; simp at hget
  | some y =>
      rw [hq] at hget
      simp at hget
      have := h k y hq
      rw [← hget]
      exact ⟨this.1, this.2⟩

lemma StInv_init : StInv {} :=
  ⟨NumberedList_nil, fun q h => by simp at h⟩

lemma StInv_update (st : PState) (q q' : PQuestion) (m : PMode) (imgs : List (String × Blob))
    (h : StInv st) (hcur : st.current = some q) (hn : q'.num = q.num) (hi : q'.id = q.id) :
    StInv { questions := st.questions, current := some q', mode := m, images := imgs } := by
  obtain ⟨hq, hc⟩ := h
  refine ⟨hq, ?_⟩
  intro x hx
  simp only at hx
  injection hx with hx
  subst hx
  have hcq := hc q hcur
  exact ⟨hn.trans hcq.1, hi.trans hcq.2⟩

lemma applyQuestionTag_inv (qtag : QTag) (i : Nat) (st : PState) (h : StInv st) :
    StInv (applyQuestionTag qtag i st) := by
  obtain ⟨hq, hc⟩ := h
  unfold applyQuestionTag
  cases hcur : st.current with
  | none =>
      refine ⟨hq, ?_⟩
      intro x hx
      simp only at hx
      injection hx with hx
      subst hx
      constructor
      · split <;> rfl
      · split <;> rfl
  | some q =>
      have hnum := hc q hcur
      have hlist : NumberedList (st.questions ++ [closeBothLists q]) :=
        NumberedList_append st.questions (closeBothLists q) hq
          ((closeBothLists_num q).trans hnum.1) ((closeBothLists_id q).trans hnum.2)
      refine ⟨hlist, ?_⟩
      intro x hx
      simp only at hx
      injection hx with hx
      subst hx
      constructor
      · split <;> rfl
      · split <;> rfl

lemma step_inv (qt : QuizType) (bl i : Nat) (b : Block) (st st' : PState)
    (hst : step qt bl i b st = Except.ok st') (h : StInv st) : StInv st' := by
  unfold step at hst
  repeat' split at hst
  all_goals try exact Except.noConfusion hst
  all_goals injection hst with h'
  all_goals subst h'
  all_goals try exact h
  all_goals try exact applyQuestionTag_inv _ _ _ h
  all_goals
    first
      | (rename_i q0 hcur h1 h2 h3
         first
           | exact StInv_update st q0 _ _ _ h hcur
               (by rw [closeBothLists_num]) (by rw [closeBothLists_id])
           | exact StInv_update st q0 _ _ _ h hcur
               (readQuestionContent_num b q0 st.images).1 (readQuestionContent_num b q0 st.images).2
           | exact StInv_update st q0 _ _ _ h hcur
               (readOptionsContent_num i b q0 st.images).1 (readOptionsContent_num i b q0 st.images).2
           | exact StInv_update st q0 _ _ _ h hcur
               (readDescriptionsContent_num b q0 st.images).1 (readDescriptionsContent_num b q0 st.images).2)
      | (rename_i q0 hcur h1 h2
         first
           | exact StInv_update st q0 _ _ _ h hcur
               (by rw [closeBothLists_num]) (by rw [closeBothLists_id])
           | exact StInv_update st q0 _ _ _ h hcur
               (readQuestionContent_num b q0 st.images).1 (readQuestionContent_num b q0 st.images).2
           | exact StInv_update st q0 _ _ _ h hcur
               (readOptionsContent_num i b q0 st.images).1 (readOptionsContent_num i b q0 st.images).2
           | exact StInv_update st q0 _ _ _ h hcur
               (readDescriptionsContent_num b q0 st.images).1 (readDescriptionsContent_num b q0 st.images).2)

lemma runBlocks_inv (qt : QuizType) (bi bl : Nat) :
    ∀ (l : List (Nat × Block)) (st st' : PState),
      runBlocks qt bi bl l st = Except.ok st' → StInv st → StInv st' := by
  intro l
  induction l with
  | nil =>
      intro st st' hr h
      rw [runBlocks] at hr
      injection hr with h'
      subst h'
      exact h
  | cons ib rest ih =>
      intro st st' hr h
      obtain ⟨i, b⟩ := ib
      rw [runBlocks] at hr
      by_cases hib : i = bi
      · rw [if_pos hib] at hr
        exact ih st st' hr h
      · rw [if_neg hib] at hr
        cases hstep : step qt bl i b st with
        | error e =>
            rw [hstep] at hr
            exact Except.noConfusion hr
        | ok st1 =>
            rw [hstep] at hr
            exact ih st1 st' hr (step_inv qt bl i b st st1 hstep h)

/-- C3: for every document that parses successfully, the question at
0-based position `k` carries `num = k+1` (dense and strictly increasing in
document order, hence independent of the digit label in the question tag)
and `id = "q" + num`. -/
theorem c3_question_numbering (blocks : List Block) (res : ParseResult)
    (h : parse blocks = Except.ok res) :
    ∀ k q, res.questions.get? k = some q →
      q.num = k + 1 ∧ q.id = "q" ++ toString (k + 1) := by
  unfold parse at h
  cases hfb : findBegin 0 blocks with
  | error e => rw [hfb] at h; simp at h
  | ok p =>
      obtain ⟨bi, qt⟩ := p
      simp only [hfb] at h
      cases hrb : runBlocks qt bi (bi + 1) (enumFrom 0 blocks) {} with
      | error e =>
          simp only [hrb] at h
          exact Except.noConfusion h
      | ok st =>
          simp only [hrb] at h
          injection h with h'
          subst h'
          have hinv : StInv st := runBlocks_inv qt bi (bi + 1) _ {} st hrb StInv_init
          intro k x hget
          have hqs : NumberedList
              (match st.current with
               | none => st.questions
               | some q => st.questions ++ [closeBothLists q]) := by
            cases hcur : st.current with
            | none => exact hinv.1
            | some q =>
                have hn := hinv.2 q hcur
                exact NumberedList_append st.questions (closeBothLists q) hinv.1
                  ((closeBothLists_num q).trans hn.1) ((closeBothLists_id q).trans hn.2)
          exact NumberedList_map_finalize _ hqs k x hget

theorem c3_witness :
    ((c3Res.questions.get? 0).map (fun q => (q.num, q.id)) = some (1, "q1"))
    ∧ ((c3Res.questions.get? 1).map (fun q => (q.num, q.id)) = some (2, "q2")) := by
  have hp : parse c3Doc = Except.ok c3Res := rfl
  have h0 : c3Res.questions.get? 0 = some (c3Res.questions.getD 0 default) := rfl
  have h1 : c3Res.questions.get? 1 = some (c3Res.questions.getD 1 default) := rfl
  have t0 := c3_question_numbering c3Doc c3Res hp 0 _ h0
  have t1 := c3_question_numbering c3Doc c3Res hp 1 _ h1
  constructor
  · rw [h0]
    simp only [Option.map_some']
    rw [t0.1, t0.2]
    rfl
  · rw [h1]
    simp only [Option.map_some']
    rw [t1.1, t1.2]
    rfl
